import Mathlib

/-!
Verification development for the SoundScript Unicode codec
(`src/soundscript_unicode.py`, class `SoundScriptUnicode`).

A Python string is modelled as a `List Nat` of Unicode code points and a
byte buffer as a `List Nat` of values below 256 (Python's `bytes` type
guarantees the bound; theorems state it as a hypothesis).  Fallible
operations (Python `raise ValueError`) are modelled with `Except Err`.
All definitions are transcribed from the source; line references are
given on each definition.
-/

/-- Error kinds corresponding to the `ValueError`s raised by the source:
`outOfRange` for `_int_to_unicode` (line 115), `chrRange` for Python's own
`chr` domain error, `outsidePUA` for `_unicode_to_int` (line 122),
`emptyEncoded` (line 281), `tooShort` (line 294) and `invalidSizeHeader`
(line 303) for `decode_string`. -/
inductive Err where
  | outOfRange
  | chrRange
  | outsidePUA
  | emptyEncoded
  | tooShort
  | invalidSizeHeader
  deriving DecidableEq, Repr

/-- Constant `PRIVATE_USE_START = 0xE000` (line 82). -/
def PRIVATE_USE_START : Nat := 0xE000

/-- Constant `PRIVATE_USE_END = 0xF8FF` (line 83). -/
def PRIVATE_USE_END : Nat := 0xF8FF

/-- Constant `CHARSET_SIZE = PRIVATE_USE_END - PRIVATE_USE_START + 1` (line 84), i.e. 6400. -/
def CHARSET_SIZE : Nat := PRIVATE_USE_END - PRIVATE_USE_START + 1

/-- Width `self.bits_per_char = math.floor(math.log2(self.CHARSET_SIZE))` (line 102):
`floor (log2 6400) = 12`.  Stated as the literal so that definitions reduce;
`bits_per_char_eq_log2` below connects it to `Nat.log2 CHARSET_SIZE`. -/
def bits_per_char : Nat := 12

/-- Range `self.values_per_char = 2 ** self.bits_per_char` (line 103), i.e. 4096. -/
def values_per_char : Nat := 2 ^ bits_per_char

/-- Sentinel zero_run, the character U+26AB (line 88). -/
def zero_run : Nat := 0x26AB

/-- Sentinel one_run, the character U+26AA (line 89). -/
def one_run : Nat := 0x26AA

/-- Sentinel repeat_2, the character U+1F501 (line 90). -/
def repeat_2 : Nat := 0x1F501

/-- Sentinel escape, the character U+1F6AA (line 91; never referenced elsewhere). -/
def escape : Nat := 0x1F6AA

/-- Sentinel end_marker, the character U+1F3C1 (line 92). -/
def end_marker : Nat := 0x1F3C1

/-- Table `FORMAT_MAP` (lines 28-77), in source insertion order.  Each value is the
list of code points of the emoji string; several entries are two code points
long because the source emoji carries a U+FE0F variation selector. -/
def FORMAT_MAP : List (String × List Nat) := [
  (".mp3", [0x1f3b5]),
  (".wav", [0x1f30a]),
  (".flac", [0x1f48e]),
  (".aac", [0x1f34e]),
  (".ogg", [0x1f3a7]),
  (".m4a", [0x1f4f1]),
  (".aiff", [0x1f3b9]),
  (".wma", [0x1fa9f]),
  (".opus", [0x1f3aa]),
  (".alac", [0x1f34f]),
  (".mp4", [0x1f3ac]),
  (".avi", [0x1f39e, 0xfe0f]),
  (".mkv", [0x1f4f9]),
  (".mov", [0x1f3a5]),
  (".wmv", [0x1f3a6]),
  (".flv", [0x1f4fa]),
  (".webm", [0x1f310]),
  (".m4v", [0x1f4fc]),
  (".jpg", [0x1f5bc, 0xfe0f]),
  (".jpeg", [0x1f5bc, 0xfe0f]),
  (".png", [0x1f3a8]),
  (".gif", [0x1f3ad]),
  (".bmp", [0x1f3de, 0xfe0f]),
  (".svg", [0x270f, 0xfe0f]),
  (".webp", [0x1f308]),
  (".ico", [0x1f537]),
  (".tiff", [0x1f4f8]),
  (".pdf", [0x1f4d5]),
  (".doc", [0x1f4d8]),
  (".docx", [0x1f4d7]),
  (".txt", [0x1f4c4]),
  (".rtf", [0x1f4c3]),
  (".odt", [0x1f4cb]),
  (".ppt", [0x1f4ca]),
  (".pptx", [0x1f4c8]),
  (".odp", [0x1f4c9]),
  (".key", [0x1f3af]),
  (".xls", [0x1f4ca]),
  (".xlsx", [0x1f4d1]),
  (".csv", [0x1f4dd]),
  (".ods", [0x1f4d0]),
  (".zip", [0x1f5dc, 0xfe0f]),
  (".rar", [0x1f4e6]),
  (".7z", [0x1f381]),
  (".tar", [0x1f4ee]),
  (".gz", [0x1f4a8]),
  (".bz2", [0x1f32c, 0xfe0f]),
  (".xz", [0x26a1]),
  (".py", [0x1f40d]),
  (".js", [0x1f4dc]),
  (".java", [0x2615]),
  (".c", [0x2699, 0xfe0f]),
  (".cpp", [0x1f527]),
  (".cs", [0x1f3ae]),
  (".html", [0x1f310]),
  (".css", [0x1f3a8]),
  (".php", [0x1f418]),
  (".rb", [0x1f48e]),
  (".go", [0x1f439]),
  (".rs", [0x1f980]),
  (".swift", [0x1f54a, 0xfe0f]),
  (".kt", [0x1f3af]),
  (".ts", [0x1f4d8]),
  (".json", [0x1f4ca]),
  (".xml", [0x1f4cb]),
  (".yaml", [0x2699, 0xfe0f]),
  (".yml", [0x2699, 0xfe0f]),
  (".toml", [0x1f527]),
  (".ini", [0x26a1]),
  (".cfg", [0x1f6e0, 0xfe0f]),
  (".exe", [0x2699, 0xfe0f]),
  (".dll", [0x1f517]),
  (".so", [0x1f50c]),
  (".app", [0x1f4f1]),
  (".dmg", [0x1f4bf]),
  (".iso", [0x1f4bd]),
  (".md", [0x1f4dd]),
  (".log", [0x1f4dc]),
  (".bin", [0x1f522]),
  (".dat", [0x1f4be]),
  (".db", [0x1f5c4, 0xfe0f]),
  (".sql", [0x1f5c3, 0xfe0f]),
  (".sqlite", [0x1f4bd]),
  ("", [0x1f4e6]),
  (".unknown", [0x2753])
]

/-- Lookup in `FORMAT_MAP` by extension (Python dict access; keys are unique). -/
def lookupFormat (ext : String) : Option (List Nat) :=
  (FORMAT_MAP.find? (fun p => p.1 == ext)).map (fun p => p.2)

/-- Reverse map lookup: the source builds `REVERSE_FORMAT_MAP` by a dict
comprehension inverting `FORMAT_MAP` (line 79), so for a repeated emoji
value the *last* inserted extension wins, hence this lookup scans the
reversed association list. -/
def REVERSE_FORMAT_MAP_lookup (chars : List Nat) : Option String :=
  (FORMAT_MAP.reverse.find? (fun p => p.2 == chars)).map (fun p => p.1)

/-- Function `_int_to_unicode` (lines 112-116): rejects `value >= 4096` with
`ValueError` but performs no lower-bound check of its own; for a negative
argument Python's `chr(0xE000 + value)` succeeds as long as the sum lies in
`[0, 0x10FFFF]` and only raises (its own domain error) below that. -/
def _int_to_unicode (value : Int) : Except Err Nat :=
  if (values_per_char : Int) ≤ value then .error .outOfRange
  else if (PRIVATE_USE_START : Int) + value < 0 ∨ (0x10FFFF : Int) < (PRIVATE_USE_START : Int) + value then
    .error .chrRange
  else .ok ((PRIVATE_USE_START : Int) + value).toNat

/-- Function `_unicode_to_int` (lines 118-123). -/
def _unicode_to_int (code : Nat) : Except Err Nat :=
  if code < PRIVATE_USE_START ∨ PRIVATE_USE_END < code then .error .outsidePUA
  else .ok (code - PRIVATE_USE_START)

/-- Total form of `_int_to_unicode` used inside the encoder, where every
argument is at most 4095 (run counts are clamped, masked values fit 12 bits,
byte inputs are below 256), so the `ValueError` branch is unreachable;
`_int_to_unicode_ok` states the agreement. -/
def itu (value : Nat) : Nat := PRIVATE_USE_START + value

/-- The zero/one-run counting loop (lines 198-200 and 210-212): starting
from `c` (the source starts at 1), keep counting while the next byte equals
`b` and the count is still below 4096.  The count may therefore reach 4096
even though the stored symbol is clamped to 4095 at emission. -/
def runCount (b : Nat) : List Nat → Nat → Nat
  | [], c => c
  | x :: xs, c => if x = b ∧ c < 4096 then runCount b xs (c + 1) else c

/-- The 2-byte-pattern counting loop (lines 224-228): starting from `c`
(the source starts at 2 with the first two occurrences already matched),
keep counting non-overlapping repetitions of the motif `p0 p1` while at
least two bytes remain and the count is below 256. -/
def patCount (p0 p1 : Nat) : List Nat → Nat → Nat
  | x :: y :: xs, c => if x = p0 ∧ y = p1 ∧ c < 256 then patCount p0 p1 xs (c + 1) else c
  | _, c => c

/-- The standard 12-bit packing branch (lines 239-263), for current byte
`b1` and remaining bytes `rest`: returns the emitted symbols and the bytes
left after the cursor advance (3, 2 or 1 bytes consumed). -/
def packStep (b1 : Nat) (rest : List Nat) : List Nat × List Nat :=
  match rest with
  | b2 :: b3 :: rest3 =>
      ([itu (((b1 <<< 4) ||| (b2 >>> 4)) &&& 0xFFF),
        itu (((b2 &&& 0x0F) <<< 8) ||| b3)], rest3)
  | [b2] =>
      ([itu (((b1 <<< 4) ||| (b2 >>> 4)) &&& 0xFFF),
        itu ((b2 &&& 0x0F) <<< 8)], [])
  | [] => ([itu (b1 <<< 4)], [])

/-- The scanning loop of `_encode_bytes` (lines 190-265).  The loop variable
`i` of the source is represented by recursing on the unscanned suffix; the
`fuel` argument bounds the number of iterations (every branch advances the
cursor by at least one byte, so `fuel = data.length` in `_encode_bytes` is
always sufficient). -/
def encodeLoop : Nat → List Nat → List Nat
  | 0, _ => []
  | _ + 1, [] => []
  | fuel + 1, byte_val :: rest =>
    let data := byte_val :: rest
    if byte_val = 0x00 ∧ 4 ≤ runCount 0x00 rest 1 then
      zero_run :: itu (min (runCount 0x00 rest 1) (values_per_char - 1)) ::
        encodeLoop fuel (data.drop (runCount 0x00 rest 1))
    else if byte_val = 0xFF ∧ 4 ≤ runCount 0xFF rest 1 then
      one_run :: itu (min (runCount 0xFF rest 1) (values_per_char - 1)) ::
        encodeLoop fuel (data.drop (runCount 0xFF rest 1))
    else
      match rest with
      | b2 :: b3 :: b4 :: rest4 =>
        if b3 = byte_val ∧ b4 = b2 ∧ 3 ≤ patCount byte_val b2 rest4 2 then
          let pattern_val := (byte_val <<< 8) ||| b2
          repeat_2 :: itu (pattern_val >>> bits_per_char) ::
            itu (pattern_val &&& ((1 <<< bits_per_char) - 1)) ::
            itu (patCount byte_val b2 rest4 2) ::
            encodeLoop fuel (data.drop (patCount byte_val b2 rest4 2 * 2))
        else
          (packStep byte_val rest).1 ++ encodeLoop fuel (packStep byte_val rest).2
      | _ =>
        (packStep byte_val rest).1 ++ encodeLoop fuel (packStep byte_val rest).2

/-- Function `_encode_bytes` (lines 184-265). -/
def _encode_bytes (data : List Nat) : List Nat :=
  encodeLoop data.length data

/-- The header-building loop of `encode_file` (lines 163-166): four symbols,
each holding 12 bits of the byte count, least significant first (reversed
into most-significant-first order by `sizeHeader`). -/
def sizeChars : Nat → Nat → List Nat
  | 0, _ => []
  | n + 1, byte_count => itu (byte_count &&& 0xFFF) :: sizeChars n (byte_count >>> 12)

/-- Reversal of the header symbols, line 167 of the source. -/
def sizeHeader (byte_count : Nat) : List Nat :=
  (sizeChars 4 byte_count).reverse

/-- The format-resolution step of `encode_file` (lines 143-152): a
registered extension maps to its emoji, anything else to
`FORMAT_MAP.get('', '📦')`, the generic tag U+1F4E6. -/
def formatCharOf (ext : String) : List Nat :=
  match lookupFormat ext with
  | some fc => fc
  | none => (lookupFormat "").getD [0x1F4E6]

/-- The pure core of `encode_file` (lines 125-182) with the file I/O and
statistics reporting elided: `result = format_char + size_header +
encoded_data + end_marker` (line 170).  The caller-side suffix extraction
and lowercasing is not modelled; `ext` is the extension as handed in. -/
def encode_file (data : List Nat) (ext : String) : List Nat :=
  formatCharOf ext ++ sizeHeader data.length ++ _encode_bytes data ++ [end_marker]

/-- The byte-extraction loop of `_decode_to_bytes` (lines 370-374): while
at least 8 bits are buffered, emit the top 8 bits and keep the remainder.
`fuel = bit_count` always suffices since each pass removes 8 bits. -/
def extractBytes : Nat → Nat → Nat → List Nat → Nat × Nat × List Nat
  | 0, bit_buffer, bit_count, result => (bit_buffer, bit_count, result)
  | fuel + 1, bit_buffer, bit_count, result =>
    if 8 ≤ bit_count then
      extractBytes fuel (bit_buffer &&& ((1 <<< (bit_count - 8)) - 1)) (bit_count - 8)
        (result ++ [(bit_buffer >>> (bit_count - 8)) &&& 0xFF])
    else (bit_buffer, bit_count, result)

/-- The scanning loop of `_decode_to_bytes` (lines 319-381).  Token operand
reads (`_unicode_to_int` on the count or motif symbols, lines 333, 341,
349-354) are *not* guarded by the `try` of the standard branch, so their
failures propagate; only a stray code point in standard position is
silently skipped (lines 364-377). -/
def decodeCore : Nat → List Nat → Nat → Nat → List Nat → Except Err (List Nat)
  | 0, _, _, _, result => .ok result
  | _ + 1, [], _, _, result => .ok result
  | fuel + 1, ch :: tail, bit_buffer, bit_count, result =>
    if ch = zero_run then
      match tail with
      | cnt :: tail2 =>
        match _unicode_to_int cnt with
        | .ok count => decodeCore fuel tail2 bit_buffer bit_count (result ++ List.replicate count 0x00)
        | .error e => .error e
      | [] => .ok result
    else if ch = one_run then
      match tail with
      | cnt :: tail2 =>
        match _unicode_to_int cnt with
        | .ok count => decodeCore fuel tail2 bit_buffer bit_count (result ++ List.replicate count 0xFF)
        | .error e => .error e
      | [] => .ok result
    else if ch = repeat_2 then
      match tail with
      | hi :: lo :: cnt :: tail2 =>
        match _unicode_to_int hi, _unicode_to_int lo, _unicode_to_int cnt with
        | .ok high, .ok low, .ok count =>
          decodeCore fuel tail2 bit_buffer bit_count
            (result ++ (List.replicate count
              [(((high <<< bits_per_char) ||| low) >>> 8) &&& 0xFF,
               ((high <<< bits_per_char) ||| low) &&& 0xFF]).flatten)
        | .error e, _, _ => .error e
        | .ok _, .error e, _ => .error e
        | .ok _, .ok _, .error e => .error e
      | _ => decodeCore fuel tail bit_buffer bit_count result
    else
      match _unicode_to_int ch with
      | .ok value =>
        let s := extractBytes (bit_count + bits_per_char)
          ((bit_buffer <<< bits_per_char) ||| value) (bit_count + bits_per_char) result
        decodeCore fuel tail s.1 s.2.1 s.2.2
      | .error _ => decodeCore fuel tail bit_buffer bit_count result

/-- Function `_decode_to_bytes` (lines 319-381): run the scanner from an empty bit
accumulator; leftover bits below 8 are discarded with the final state.
Every iteration of the source loop advances `i` by at least one, so
`fuel = encoded.length` always reaches the loop's own exit. -/
def _decode_to_bytes (encoded : List Nat) : Except Err (List Nat) :=
  decodeCore encoded.length encoded 0 0 []

/-- The size-header fold of `decode_string` (lines 296-303): any header
character outside the private use area aborts with `invalidSizeHeader`. -/
def readSizeHeader : List Nat → Nat → Except Err Nat
  | [], original_size => .ok original_size
  | c :: cs, original_size =>
    match _unicode_to_int c with
    | .ok val => readSizeHeader cs ((original_size <<< 12) ||| val)
    | .error _ => .error .invalidSizeHeader

/-- Function `decode_string` (lines 267-317).  Note that `encoded[0]` is a single
code point, so a two-code-point emoji tag never matches its
`REVERSE_FORMAT_MAP` entry and its U+FE0F tail is read as part of the size
header. -/
def decode_string (encoded : List Nat) : Except Err (List Nat × String) :=
  match encoded with
  | [] => .error .emptyEncoded
  | format_char :: _ =>
    let file_format :=
      match REVERSE_FORMAT_MAP_lookup [format_char] with
      | some fmt => fmt
      | none => ".bin"
    if encoded.length < 6 then .error .tooShort
    else
      match readSizeHeader ((encoded.drop 1).take 4) 0 with
      | .error e => .error e
      | .ok original_size =>
        let data_part := encoded.drop 5
        let data_part :=
          if data_part.getLast? = some end_marker then data_part.dropLast else data_part
        match _decode_to_bytes data_part with
        | .error e => .error e
        | .ok decoded_bytes =>
          .ok (if original_size < decoded_bytes.length
               then decoded_bytes.take original_size else decoded_bytes,
               file_format)

/-! ### Bridges between the bitwise operators of the source and ordinary
arithmetic, used to reason about the 12-bit packing. -/

theorem or_disjoint (a b k : Nat) (h : b < 2 ^ k) : (a <<< k) ||| b = a * 2 ^ k + b := by
  rw [Nat.shiftLeft_eq, Nat.mul_comm]
  exact (Nat.mul_add_lt_is_or h a).symm

theorem mask_general (a k : Nat) : a &&& ((1 <<< k) - 1) = a % 2 ^ k := by
  have h1 : (1 : Nat) <<< k = 2 ^ k := by rw [Nat.shiftLeft_eq, Nat.one_mul]
  rw [h1, Nat.and_pow_two_sub_one_eq_mod]

theorem mask_0xFFF (a : Nat) : a &&& 0xFFF = a % 4096 := by
  have h : (0xFFF : Nat) = 2 ^ 12 - 1 := by norm_num
  rw [h, Nat.and_pow_two_sub_one_eq_mod]

theorem mask_0xFF (a : Nat) : a &&& 0xFF = a % 256 := by
  have h : (0xFF : Nat) = 2 ^ 8 - 1 := by norm_num
  rw [h, Nat.and_pow_two_sub_one_eq_mod]

theorem mask_0xF (a : Nat) : a &&& 0x0F = a % 16 := by
  have h : (0x0F : Nat) = 2 ^ 4 - 1 := by norm_num
  rw [h, Nat.and_pow_two_sub_one_eq_mod]

theorem shiftR_div (a k : Nat) : a >>> k = a / 2 ^ k := Nat.shiftRight_eq_div_pow a k

theorem shiftL_mul (a k : Nat) : a <<< k = a * 2 ^ k := Nat.shiftLeft_eq a k

/-! ### Facts about the symbol alphabet. -/

/-- Inside the encoder every symbol value is at most 4095, where the checked
conversion agrees with the total one. -/
theorem _int_to_unicode_ok (v : Nat) (h : v < values_per_char) :
    _int_to_unicode v = .ok (itu v) := by
  have h4096 : v < 4096 := by
    have hvp : values_per_char = 4096 := rfl
    omega
  unfold _int_to_unicode itu
  rw [if_neg (by unfold values_per_char bits_per_char; push_cast; omega),
    if_neg (by unfold PRIVATE_USE_START; push_cast; omega)]
  exact congrArg Except.ok (by omega)

/-- Converting a packed symbol back: `_unicode_to_int` is a left inverse of
the total `itu` on the 6400 code points of the private use area. -/
theorem _unicode_to_int_itu (v : Nat) (h : v < CHARSET_SIZE) :
    _unicode_to_int (itu v) = .ok v := by
  have h6400 : v < 6400 := by
    have hcs : CHARSET_SIZE = 6400 := rfl
    omega
  unfold _unicode_to_int itu
  simp only [if_neg (show ¬ (PRIVATE_USE_START + v < PRIVATE_USE_START ∨
    PRIVATE_USE_END < PRIVATE_USE_START + v) by unfold PRIVATE_USE_START PRIVATE_USE_END; omega)]
  exact congrArg Except.ok (by omega)

/-- A `_unicode_to_int` failure is always the outside-private-use-area error. -/
theorem _unicode_to_int_error (c : Nat) (e : Err) (h : _unicode_to_int c = .error e) :
    e = .outsidePUA := by
  unfold _unicode_to_int at h
  split at h
  · cases h; rfl
  · cases h

/-! ### Step lemmas for the encoder loop. -/

theorem encodeLoop_nil (fuel : Nat) : encodeLoop fuel [] = [] := by
  cases fuel <;> rfl

/-- The counting loop on a uniform run: starting from `c ≤ 4096` over `n`
copies of `b`, counting stops at the smaller of `c + n` (run exhausted) and
4096 (cap reached). -/
theorem runCount_replicate (b : Nat) (n : Nat) :
    ∀ c, c ≤ 4096 → runCount b (List.replicate n b) c = min (c + n) 4096 := by
  induction n with
  | zero => intro c hc; simp [runCount]; omega
  | succ m ih =>
    intro c hc
    rw [List.replicate_succ, runCount]
    by_cases h : c < 4096
    · rw [if_pos ⟨rfl, h⟩, ih (c + 1) (by omega)]
      omega
    · rw [if_neg (by omega)]
      omega

/-! ### Step lemmas for the decoder loop. -/

theorem decodeCore_fuel_zero (enc : List Nat) (bb bc : Nat) (res : List Nat) :
    decodeCore 0 enc bb bc res = .ok res := rfl

theorem decodeCore_nil (fuel : Nat) (bb bc : Nat) (res : List Nat) :
    decodeCore fuel [] bb bc res = .ok res := by
  cases fuel <;> rfl

/-- A symbol of the private use area is never mistaken for one of the three
dispatched sentinels: the sentinel code points lie outside `[0xE000, 0xF8FF]`. -/
theorem itu_ne_sentinels (v : Nat) (hv : v < CHARSET_SIZE) :
    ¬ itu v = zero_run ∧ ¬ itu v = one_run ∧ ¬ itu v = repeat_2 := by
  have h6400 : v < 6400 := by
    have hcs : CHARSET_SIZE = 6400 := rfl
    omega
  have h : itu v = 57344 + v := rfl
  have hz : zero_run = 9899 := rfl
  have ho : one_run = 9898 := rfl
  have hr : repeat_2 = 128257 := rfl
  refine ⟨?_, ?_, ?_⟩
  · rw [h, hz]; omega
  · rw [h, ho]; omega
  · rw [h, hr]; omega

/-- Decoder step on a zero-run token. -/
theorem decodeCore_zero_run (fuel : Nat) (v : Nat) (hv : v < CHARSET_SIZE)
    (tail : List Nat) (bb bc : Nat) (res : List Nat) :
    decodeCore (fuel + 1) (zero_run :: itu v :: tail) bb bc res =
      decodeCore fuel tail bb bc (res ++ List.replicate v 0x00) := by
  simp only [decodeCore, _unicode_to_int_itu v hv]
  rw [if_pos trivial]

/-- Decoder step on a one-run token. -/
theorem decodeCore_one_run (fuel : Nat) (v : Nat) (hv : v < CHARSET_SIZE)
    (tail : List Nat) (bb bc : Nat) (res : List Nat) :
    decodeCore (fuel + 1) (one_run :: itu v :: tail) bb bc res =
      decodeCore fuel tail bb bc (res ++ List.replicate v 0xFF) := by
  simp only [decodeCore, if_neg (show ¬ one_run = zero_run by unfold zero_run one_run; omega),
    _unicode_to_int_itu v hv]
  rw [if_pos trivial]

/-- Decoder step on a pattern-repeat token. -/
theorem decodeCore_repeat (fuel : Nat) (hi lo cnt : Nat)
    (hhi : hi < CHARSET_SIZE) (hlo : lo < CHARSET_SIZE) (hcnt : cnt < CHARSET_SIZE)
    (tail : List Nat) (bb bc : Nat) (res : List Nat) :
    decodeCore (fuel + 1) (repeat_2 :: itu hi :: itu lo :: itu cnt :: tail) bb bc res =
      decodeCore fuel tail bb bc
        (res ++ (List.replicate cnt
          [(((hi <<< bits_per_char) ||| lo) >>> 8) &&& 0xFF,
           ((hi <<< bits_per_char) ||| lo) &&& 0xFF]).flatten) := by
  simp only [decodeCore, if_neg (show ¬ repeat_2 = zero_run by unfold zero_run repeat_2; omega),
    if_neg (show ¬ repeat_2 = one_run by unfold one_run repeat_2; omega),
    _unicode_to_int_itu hi hhi, _unicode_to_int_itu lo hlo,
    _unicode_to_int_itu cnt hcnt]
  rw [if_pos trivial]

/-- Decoder step on a packed symbol: push 12 bits and drain whole bytes. -/
theorem decodeCore_packed (fuel : Nat) (v : Nat) (hv : v < CHARSET_SIZE)
    (tail : List Nat) (bb bc : Nat) (res : List Nat) :
    decodeCore (fuel + 1) (itu v :: tail) bb bc res =
      decodeCore fuel tail
        (extractBytes (bc + bits_per_char) ((bb <<< bits_per_char) ||| v) (bc + bits_per_char) res).1
        (extractBytes (bc + bits_per_char) ((bb <<< bits_per_char) ||| v) (bc + bits_per_char) res).2.1
        (extractBytes (bc + bits_per_char) ((bb <<< bits_per_char) ||| v) (bc + bits_per_char) res).2.2 := by
  obtain ⟨h1, h2, h3⟩ := itu_ne_sentinels v hv
  simp only [decodeCore, if_neg h1, if_neg h2, if_neg h3, _unicode_to_int_itu v hv]

theorem extractBytes_step (fuel bb bc : Nat) (res : List Nat) (h : 8 ≤ bc) :
    extractBytes (fuel + 1) bb bc res =
      extractBytes fuel (bb &&& ((1 <<< (bc - 8)) - 1)) (bc - 8)
        (res ++ [(bb >>> (bc - 8)) &&& 0xFF]) := by
  rw [extractBytes, if_pos h]

theorem extractBytes_done (fuel bb bc : Nat) (res : List Nat) (h : bc < 8) :
    extractBytes (fuel + 1) bb bc res = (bb, bc, res) := by
  rw [extractBytes, if_neg (by omega)]

/-! ### Structure lemmas for `decode_string` and `readSizeHeader`. -/

theorem readSizeHeader_error (cs : List Nat) :
    ∀ os e, readSizeHeader cs os = .error e → e = .invalidSizeHeader := by
  induction cs with
  | nil => intro os e h; simp [readSizeHeader] at h
  | cons c cs ih =>
    intro os e h
    rw [readSizeHeader] at h
    cases hu : _unicode_to_int c with
    | ok v => rw [hu] at h; exact ih _ _ h
    | error e2 => rw [hu] at h; cases h; rfl

/-- Unfolding `decode_string` on an artifact presented as one tag code point,
four header code points and a non-empty remainder, when the header parses
and the payload decodes. -/
theorem decode_string_ok (fc h1 h2 h3 h4 : Nat) (rest : List Nat) (hrest : rest ≠ [])
    (sz : Nat) (hsz : readSizeHeader [h1, h2, h3, h4] 0 = .ok sz)
    (db : List Nat)
    (hdb : _decode_to_bytes
      (if rest.getLast? = some end_marker then rest.dropLast else rest) = .ok db)
    (fmt : String)
    (hfmt : (match REVERSE_FORMAT_MAP_lookup [fc] with
             | some f => f
             | none => ".bin") = fmt) :
    decode_string (fc :: h1 :: h2 :: h3 :: h4 :: rest) =
      .ok (if sz < db.length then db.take sz else db, fmt) := by
  have hlen : ¬ (fc :: h1 :: h2 :: h3 :: h4 :: rest).length < 6 := by
    simp only [List.length_cons]
    have := List.length_pos.mpr hrest
    omega
  simp only [decode_string, if_neg hlen]
  have hdrop : ((fc :: h1 :: h2 :: h3 :: h4 :: rest).drop 1).take 4 = [h1, h2, h3, h4] := rfl
  have hdrop5 : (fc :: h1 :: h2 :: h3 :: h4 :: rest).drop 5 = rest := rfl
  rw [hdrop, hdrop5, hsz, hdb, hfmt]

/-- The literal 12 agrees with the `floor (log2 6400)` computed in `__init__`. -/
theorem bits_per_char_eq_log2 : bits_per_char = Nat.log2 CHARSET_SIZE := by
  have hcs : CHARSET_SIZE = 6400 := rfl
  have h : Nat.log2 6400 = Nat.log 2 6400 := Nat.log2_eq_log_two
  have h2 : Nat.log 2 6400 = 12 := Nat.log_eq_of_pow_le_of_lt_pow (by norm_num) (by norm_num)
  rw [hcs, h, h2]
  rfl

/-- Encoding a buffer that is one uniform run of `n` zero bytes,
`4 ≤ n ≤ 4096`: one token is emitted, the counting loop consumes all `n`
bytes, and the stored count symbol is `min n 4095`. -/
theorem encodeLoop_zero_replicate (n fuel : Nat) (h4 : 4 ≤ n) (hcap : n ≤ 4096)
    (hfuel : 0 < fuel) :
    encodeLoop fuel (List.replicate n 0x00) = [zero_run, itu (min n 4095)] := by
  obtain ⟨f, rfl⟩ : ∃ f, fuel = f + 1 := ⟨fuel - 1, by omega⟩
  obtain ⟨m, rfl⟩ : ∃ m, n = m + 1 := ⟨n - 1, by omega⟩
  rw [List.replicate_succ]
  have hrc : runCount 0x00 (List.replicate m 0x00) 1 = min (1 + m) 4096 :=
    runCount_replicate 0x00 m 1 (by omega)
  have hcond : ((0x00 : Nat) = 0x00 ∧ 4 ≤ runCount 0x00 (List.replicate m 0x00) 1) :=
    ⟨rfl, by rw [hrc]; omega⟩
  simp only [encodeLoop, if_pos hcond]
  rw [hrc]
  have hmin : min (1 + m) 4096 = m + 1 := by omega
  rw [hmin]
  have hvp : values_per_char - 1 = 4095 := rfl
  rw [hvp]
  rw [List.drop_succ_cons]
  rw [List.drop_eq_nil_of_le (by rw [List.length_replicate])]
  rw [encodeLoop_nil]
  rw [if_pos (show True ∧ 4 ≤ m + 1 from ⟨trivial, by omega⟩)]

/-- The same for a uniform run of `n` 0xFF bytes. -/
theorem encodeLoop_one_replicate (n fuel : Nat) (h4 : 4 ≤ n) (hcap : n ≤ 4096)
    (hfuel : 0 < fuel) :
    encodeLoop fuel (List.replicate n 0xFF) = [one_run, itu (min n 4095)] := by
  obtain ⟨f, rfl⟩ : ∃ f, fuel = f + 1 := ⟨fuel - 1, by omega⟩
  obtain ⟨m, rfl⟩ : ∃ m, n = m + 1 := ⟨n - 1, by omega⟩
  rw [List.replicate_succ]
  have hrc : runCount 0xFF (List.replicate m 0xFF) 1 = min (1 + m) 4096 :=
    runCount_replicate 0xFF m 1 (by omega)
  have hcond0 : ¬ ((0xFF : Nat) = 0x00 ∧ 4 ≤ runCount 0x00 (List.replicate m 0xFF) 1) :=
    fun hx => absurd hx.1 (by omega)
  have hcond : ((0xFF : Nat) = 0xFF ∧ 4 ≤ runCount 0xFF (List.replicate m 0xFF) 1) :=
    ⟨rfl, by rw [hrc]; omega⟩
  simp only [encodeLoop, if_neg hcond0, if_pos hcond]
  rw [hrc]
  have hmin : min (1 + m) 4096 = m + 1 := by omega
  rw [hmin]
  have hvp : values_per_char - 1 = 4095 := rfl
  rw [hvp]
  rw [List.drop_succ_cons]
  rw [List.drop_eq_nil_of_le (by rw [List.length_replicate])]
  rw [encodeLoop_nil]
  rw [if_pos (show True ∧ 4 ≤ m + 1 from ⟨trivial, by omega⟩)]

/-- C1: the spec claims `decode(encode(b, e)) == (b, resolveExtension(e))`
for every byte buffer `b`.  The code violates this at the run-count
boundary: a run of 4096 zero bytes is consumed in full by the cursor while
the stored count symbol is clamped to 4095, so decoding returns only 4095
bytes.  This theorem evaluates the code at that failing input. -/
theorem claim_C1_boundary_run_divergence :
    decode_string (encode_file (List.replicate 4096 0x00) ".txt")
      = .ok (List.replicate 4095 0x00, ".txt") ∧
    List.replicate 4095 (0x00 : Nat) ≠ List.replicate 4096 0x00 := by
  constructor
  · have henc : _encode_bytes (List.replicate 4096 0x00) = [zero_run, itu 4095] := by
      rw [_encode_bytes, List.length_replicate]
      rw [encodeLoop_zero_replicate 4096 4096 (by omega) (by omega) (by omega)]
      rfl
    have hart : encode_file (List.replicate 4096 0x00) ".txt"
        = 0x1F4C4 :: 0xE000 :: 0xE000 :: 0xE001 :: 0xE000 :: [zero_run, itu 4095, end_marker] := by
      rw [encode_file, henc, List.length_replicate]
      rfl
    have hdb : _decode_to_bytes
        (if ([zero_run, itu 4095, end_marker] : List Nat).getLast? = some end_marker
         then ([zero_run, itu 4095, end_marker] : List Nat).dropLast
         else [zero_run, itu 4095, end_marker]) = .ok (List.replicate 4095 0x00) := by
      have hif : (if ([zero_run, itu 4095, end_marker] : List Nat).getLast? = some end_marker
          then ([zero_run, itu 4095, end_marker] : List Nat).dropLast
          else [zero_run, itu 4095, end_marker]) = [zero_run, itu 4095] := by rfl
      rw [hif, _decode_to_bytes]
      rw [show ([zero_run, itu 4095] : List Nat).length = 1 + 1 from rfl]
      rw [decodeCore_zero_run 1 4095 (by decide) [] 0 0 []]
      rw [decodeCore_nil, List.nil_append]
    rw [hart]
    rw [decode_string_ok 0x1F4C4 0xE000 0xE000 0xE001 0xE000 [zero_run, itu 4095, end_marker]
      (by simp) 4096 (by rfl) (List.replicate 4095 0x00) hdb ".txt" (by rfl)]
    rw [List.length_replicate, if_neg (by omega)]
  · intro hcontra
    have hlen := congrArg List.length hcontra
    rw [List.length_replicate, List.length_replicate] at hlen
    omega

/-- C2: runs of exactly 4095 identical bytes round-trip; but contrary to
the claim, a run of 4096 identical 0xFF bytes does not round-trip
byte-for-byte: the counting loop stops at 4096 while the written count
symbol is separately clamped with `min(count, 4095)`, so one byte is lost.
The third conjunct shows the emitted token after the cursor consumed all
4096 bytes. -/
theorem claim_C2_run_cap_enforcement :
    decode_string (encode_file (List.replicate 4095 0xFF) ".bin")
      = .ok (List.replicate 4095 0xFF, ".bin") ∧
    decode_string (encode_file (List.replicate 4096 0xFF) ".bin")
      = .ok (List.replicate 4095 0xFF, ".bin") ∧
    _encode_bytes (List.replicate 4096 0xFF) = [one_run, itu 4095] := by
  have henc96 : _encode_bytes (List.replicate 4096 0xFF) = [one_run, itu 4095] := by
    rw [_encode_bytes, List.length_replicate]
    rw [encodeLoop_one_replicate 4096 4096 (by omega) (by omega) (by omega)]
    rfl
  have henc95 : _encode_bytes (List.replicate 4095 0xFF) = [one_run, itu 4095] := by
    rw [_encode_bytes, List.length_replicate]
    rw [encodeLoop_one_replicate 4095 4095 (by omega) (by omega) (by omega)]
    rfl
  have hdb : _decode_to_bytes
      (if ([one_run, itu 4095, end_marker] : List Nat).getLast? = some end_marker
       then ([one_run, itu 4095, end_marker] : List Nat).dropLast
       else [one_run, itu 4095, end_marker]) = .ok (List.replicate 4095 0xFF) := by
    have hif : (if ([one_run, itu 4095, end_marker] : List Nat).getLast? = some end_marker
        then ([one_run, itu 4095, end_marker] : List Nat).dropLast
        else [one_run, itu 4095, end_marker]) = [one_run, itu 4095] := by rfl
    rw [hif, _decode_to_bytes]
    rw [show ([one_run, itu 4095] : List Nat).length = 1 + 1 from rfl]
    rw [decodeCore_one_run 1 4095 (by decide) [] 0 0 []]
    rw [decodeCore_nil, List.nil_append]
  refine ⟨?_, ?_, henc96⟩
  · have hart : encode_file (List.replicate 4095 0xFF) ".bin"
        = 0x1F522 :: 0xE000 :: 0xE000 :: 0xE000 :: 0xEFFF :: [one_run, itu 4095, end_marker] := by
      rw [encode_file, henc95, List.length_replicate]
      rfl
    rw [hart]
    rw [decode_string_ok 0x1F522 0xE000 0xE000 0xE000 0xEFFF [one_run, itu 4095, end_marker]
      (by simp) 4095 (by rfl) (List.replicate 4095 0xFF) hdb ".bin" (by rfl)]
    rw [List.length_replicate, if_neg (by omega)]
  · have hart : encode_file (List.replicate 4096 0xFF) ".bin"
        = 0x1F522 :: 0xE000 :: 0xE000 :: 0xE001 :: 0xE000 :: [one_run, itu 4095, end_marker] := by
      rw [encode_file, henc96, List.length_replicate]
      rfl
    rw [hart]
    rw [decode_string_ok 0x1F522 0xE000 0xE000 0xE001 0xE000 [one_run, itu 4095, end_marker]
      (by simp) 4096 (by rfl) (List.replicate 4095 0xFF) hdb ".bin" (by rfl)]
    rw [List.length_replicate, if_neg (by omega)]

/-- C3 counterexample: the claim says `_int_to_unicode` fails for every
`v < 0`, but the source only checks the upper bound; at `v = -1` Python's
`chr(0xE000 - 1)` succeeds, returning U+DFFF without any error. -/
theorem claim_C3_counterexample : _int_to_unicode (-1) = .ok 0xDFFF := by rfl

/-- C3 amended: on `[0, 4095]` the conversion round-trips and values above
4095 fail with the out-of-range error, as claimed; but a negative `v` is
not caught by the range check: down to `-0xE000` the conversion succeeds,
producing a code point below the private use area, and only below
`-0xE000` does it fail, with `chr`'s own domain error instead. -/
theorem claim_C3_alphabet_roundtrip_amended :
    (∀ v : Nat, v ≤ 4095 →
      _int_to_unicode v = .ok (itu v) ∧ _unicode_to_int (itu v) = .ok v) ∧
    (∀ v : Int, 4095 < v → _int_to_unicode v = .error .outOfRange) ∧
    (∀ v : Int, -0xE000 ≤ v → v < 0 →
      ∃ c : Nat, _int_to_unicode v = .ok c ∧ c < PRIVATE_USE_START) ∧
    (∀ v : Int, v < -0xE000 → _int_to_unicode v = .error .chrRange) := by
  refine ⟨?_, ?_, ?_, ?_⟩
  · intro v hv
    refine ⟨_int_to_unicode_ok v (by rw [show values_per_char = 4096 from rfl]; omega),
      _unicode_to_int_itu v (by rw [show CHARSET_SIZE = 6400 from rfl]; omega)⟩
  · intro v hv
    unfold _int_to_unicode
    rw [if_pos (by rw [show (values_per_char : Int) = 4096 from rfl]; omega)]
  · intro v hlo hhi
    refine ⟨((PRIVATE_USE_START : Int) + v).toNat, ?_, ?_⟩
    · unfold _int_to_unicode
      rw [if_neg (by rw [show (values_per_char : Int) = 4096 from rfl]; omega),
        if_neg (by rw [show ((PRIVATE_USE_START : Nat) : Int) = 57344 from rfl]; omega)]
    · rw [show (PRIVATE_USE_START : Nat) = 57344 from rfl]
      omega
  · intro v hv
    unfold _int_to_unicode
    rw [if_neg (by rw [show (values_per_char : Int) = 4096 from rfl]; omega),
      if_pos (by rw [show ((PRIVATE_USE_START : Nat) : Int) = 57344 from rfl]; omega)]

/-- Witness for C3's amended theorem at `v = 5` and `v = 5000`. -/
theorem claim_C3_witness :
    (_int_to_unicode 5 = .ok (itu 5) ∧ _unicode_to_int (itu 5) = .ok 5) ∧
    _int_to_unicode 5000 = .error .outOfRange :=
  ⟨claim_C3_alphabet_roundtrip_amended.1 5 (by decide),
   claim_C3_alphabet_roundtrip_amended.2.1 5000 (by decide)⟩

/-- The first packed symbol `((b1 << 4) | (b2 >> 4)) & 0xFFF` (line 245) is
the top 12 bits of the 24-bit group. -/
theorem pack_val1 (b1 b2 : Nat) (h1 : b1 < 256) (h2 : b2 < 256) :
    ((b1 <<< 4) ||| (b2 >>> 4)) &&& 0xFFF = b1 * 16 + b2 / 16 := by
  have hr : b2 >>> 4 = b2 / 16 := by rw [shiftR_div]; norm_num
  have hor : (b1 <<< 4) ||| (b2 / 16) = b1 * 16 + b2 / 16 := by
    have h := or_disjoint b1 (b2 / 16) 4 (by rw [show (2:Nat)^4 = 16 from rfl]; omega)
    rw [h]; norm_num
  rw [hr, hor, mask_0xFFF]
  omega

/-- The second packed symbol `((b2 & 0x0F) << 8) | b3` (line 251) is the
bottom 12 bits of the 24-bit group. -/
theorem pack_val2 (b2 b3 : Nat) (h3 : b3 < 256) :
    ((b2 &&& 0x0F) <<< 8) ||| b3 = b2 % 16 * 256 + b3 := by
  rw [mask_0xF]
  have h := or_disjoint (b2 % 16) b3 8 (by rw [show (2:Nat)^8 = 256 from rfl]; omega)
  rw [h]; norm_num

/-- Motif value `pattern_val = (p0 << 8) | p1` (line 232) as arithmetic. -/
theorem pack_val3 (p0 p1 : Nat) (h1 : p1 < 256) :
    (p0 <<< 8) ||| p1 = p0 * 256 + p1 := by
  have h := or_disjoint p0 p1 8 (by rw [show (2:Nat)^8 = 256 from rfl]; omega)
  rw [h]; norm_num

/-- Draining the accumulator after the first symbol of a group: 12 bits in,
one byte (the top 8 bits) out, 4 bits retained. -/
theorem extract_first (s : Nat) (res : List Nat) (hs : s < 4096) :
    extractBytes 12 s 12 res = (s % 16, 4, res ++ [s / 16]) := by
  rw [show (12 : Nat) = 11 + 1 from rfl]
  rw [extractBytes_step 11 s (11 + 1) res (by omega)]
  rw [show (11 + 1 - 8 : Nat) = 4 from rfl]
  rw [show (11 : Nat) = 10 + 1 from rfl]
  rw [extractBytes_done 10 _ 4 _ (by omega)]
  rw [mask_general s 4, shiftR_div s 4, mask_0xFF]
  rw [show (2:Nat)^4 = 16 from rfl]
  rw [Nat.mod_eq_of_lt (show s / 16 < 256 by omega)]

/-- Draining the accumulator after the second symbol of a group: the 4
retained bits plus 12 new bits form 16 bits, emitted as two bytes. -/
theorem extract_second (bb : Nat) (res : List Nat) (hbb : bb < 65536) :
    extractBytes 16 bb 16 res = (0, 0, res ++ [bb / 256, bb % 256]) := by
  rw [show (16 : Nat) = 15 + 1 from rfl]
  rw [extractBytes_step 15 bb (15 + 1) res (by omega)]
  rw [show (15 + 1 - 8 : Nat) = 8 from rfl]
  rw [show (15 : Nat) = 14 + 1 from rfl]
  rw [extractBytes_step 14 _ 8 _ (by omega)]
  rw [show (8 - 8 : Nat) = 0 from rfl]
  rw [show (14 : Nat) = 13 + 1 from rfl]
  rw [extractBytes_done 13 _ 0 _ (by omega)]
  rw [mask_general bb 8]
  rw [mask_general (bb % 2 ^ 8) 0]
  rw [Nat.shiftRight_zero]
  rw [shiftR_div bb 8]
  rw [mask_0xFF (bb / 2 ^ 8), mask_0xFF (bb % 2 ^ 8)]
  rw [show (2:Nat)^8 = 256 from rfl, show (2:Nat)^0 = 1 from rfl]
  rw [show ∀ x : Nat, x % 256 % 1 = 0 from fun x => by omega]
  rw [Nat.mod_eq_of_lt (show bb / 256 < 256 by omega)]
  rw [show bb % 256 % 256 = bb % 256 from by omega]
  rw [List.append_assoc, List.singleton_append]

/-- Lemma `decodeCore_packed` restated with the accumulator result supplied as an
equation, convenient for chaining. -/
theorem decodeCore_packed_state (fuel v : Nat) (hv : v < CHARSET_SIZE)
    (tail : List Nat) (bb bc : Nat) (res : List Nat) (bb2 bc2 : Nat) (res2 : List Nat)
    (hx : extractBytes (bc + bits_per_char) ((bb <<< bits_per_char) ||| v) (bc + bits_per_char) res
      = (bb2, bc2, res2)) :
    decodeCore (fuel + 1) (itu v :: tail) bb bc res = decodeCore fuel tail bb2 bc2 res2 := by
  rw [decodeCore_packed fuel v hv tail bb bc res, hx]

/-- Feeding the two packed symbols of one 3-byte group into the decoder's
bit accumulator (starting and ending at an empty accumulator) emits exactly
the three original bytes. -/
theorem decode_group (b1 b2 b3 : Nat) (h1 : b1 < 256) (h2 : b2 < 256) (h3 : b3 < 256)
    (fuel : Nat) (rest res : List Nat) :
    decodeCore (fuel + 1 + 1)
      (itu ((b1 * 65536 + b2 * 256 + b3) / 4096)
        :: itu ((b1 * 65536 + b2 * 256 + b3) % 4096) :: rest) 0 0 res
      = decodeCore fuel rest 0 0 (res ++ [b1, b2, b3]) := by
  have hx1 : extractBytes (0 + bits_per_char)
      ((0 <<< bits_per_char) ||| ((b1 * 65536 + b2 * 256 + b3) / 4096)) (0 + bits_per_char) res
      = ((b1 * 65536 + b2 * 256 + b3) / 4096 % 16, 4,
         res ++ [(b1 * 65536 + b2 * 256 + b3) / 4096 / 16]) := by
    rw [Nat.zero_shiftLeft, Nat.zero_or]
    rw [show (0 + bits_per_char : Nat) = 12 from rfl]
    exact extract_first _ _ (by omega)
  rw [decodeCore_packed_state (fuel + 1) _
    (by rw [show CHARSET_SIZE = 6400 from rfl]; omega) _ 0 0 res _ _ _ hx1]
  have hor : (((b1 * 65536 + b2 * 256 + b3) / 4096 % 16) <<< bits_per_char)
      ||| ((b1 * 65536 + b2 * 256 + b3) % 4096)
      = (b1 * 65536 + b2 * 256 + b3) / 4096 % 16 * 4096
        + (b1 * 65536 + b2 * 256 + b3) % 4096 := by
    have h := or_disjoint ((b1 * 65536 + b2 * 256 + b3) / 4096 % 16)
      ((b1 * 65536 + b2 * 256 + b3) % 4096) 12
      (by rw [show (2:Nat)^12 = 4096 from rfl]; omega)
    rw [show bits_per_char = 12 from rfl, h, show (2:Nat)^12 = 4096 from rfl]
  have hx2 : extractBytes (4 + bits_per_char)
      ((((b1 * 65536 + b2 * 256 + b3) / 4096 % 16) <<< bits_per_char)
        ||| ((b1 * 65536 + b2 * 256 + b3) % 4096))
      (4 + bits_per_char) (res ++ [(b1 * 65536 + b2 * 256 + b3) / 4096 / 16])
      = (0, 0, (res ++ [(b1 * 65536 + b2 * 256 + b3) / 4096 / 16])
          ++ [((b1 * 65536 + b2 * 256 + b3) / 4096 % 16 * 4096
               + (b1 * 65536 + b2 * 256 + b3) % 4096) / 256,
              ((b1 * 65536 + b2 * 256 + b3) / 4096 % 16 * 4096
               + (b1 * 65536 + b2 * 256 + b3) % 4096) % 256]) := by
    rw [hor, show (4 + bits_per_char : Nat) = 16 from rfl]
    exact extract_second _ _ (by omega)
  rw [decodeCore_packed_state fuel _
    (by rw [show CHARSET_SIZE = 6400 from rfl]; omega) rest _ 4 _ 0 0 _ hx2]
  rw [show (b1 * 65536 + b2 * 256 + b3) / 4096 / 16 = b1 from by omega]
  rw [show ((b1 * 65536 + b2 * 256 + b3) / 4096 % 16 * 4096
      + (b1 * 65536 + b2 * 256 + b3) % 4096) / 256 = b2 from by omega]
  rw [show ((b1 * 65536 + b2 * 256 + b3) / 4096 % 16 * 4096
      + (b1 * 65536 + b2 * 256 + b3) % 4096) % 256 = b3 from by omega]
  rw [List.append_assoc, List.singleton_append]

/-- C4: in the uncompressed branch, a full 3-byte group yields exactly the
top and bottom 12 bits of the 24-bit concatenation; a 2-byte tail yields a
second symbol with the leftover nibble in the high 4 bits and the low 8
bits zero; a 1-byte tail yields one symbol with the byte in the high 8 of
the 12 bits and the low 4 bits zero; the encoder loop delegates to this
branch whenever no run or pattern fires; and the decoder's bit accumulator
inverts the 3-byte packing exactly. -/
theorem claim_C4_bytepacker_scheme :
    (∀ b1 b2 b3 : Nat, ∀ rest : List Nat, b1 < 256 → b2 < 256 → b3 < 256 →
      packStep b1 (b2 :: b3 :: rest) =
        ([itu ((b1 * 65536 + b2 * 256 + b3) / 4096),
          itu ((b1 * 65536 + b2 * 256 + b3) % 4096)], rest)) ∧
    (∀ b1 b2 : Nat, b1 < 256 → b2 < 256 →
      packStep b1 [b2] = ([itu (b1 * 16 + b2 / 16), itu (b2 % 16 * 256)], [])) ∧
    (∀ b1 : Nat, b1 < 256 → packStep b1 [] = ([itu (b1 * 16)], [])) ∧
    (∀ fuel : Nat, ∀ b1 b2 b3 b4 : Nat, ∀ rest4 : List Nat,
      ¬ (b1 = 0x00 ∧ 4 ≤ runCount 0x00 (b2 :: b3 :: b4 :: rest4) 1) →
      ¬ (b1 = 0xFF ∧ 4 ≤ runCount 0xFF (b2 :: b3 :: b4 :: rest4) 1) →
      ¬ (b3 = b1 ∧ b4 = b2 ∧ 3 ≤ patCount b1 b2 rest4 2) →
      encodeLoop (fuel + 1) (b1 :: b2 :: b3 :: b4 :: rest4) =
        (packStep b1 (b2 :: b3 :: b4 :: rest4)).1
          ++ encodeLoop fuel (packStep b1 (b2 :: b3 :: b4 :: rest4)).2) ∧
    (∀ b1 b2 b3 : Nat, b1 < 256 → b2 < 256 → b3 < 256 →
      ∀ fuel : Nat, ∀ rest res : List Nat,
      decodeCore (fuel + 1 + 1)
        (itu ((b1 * 65536 + b2 * 256 + b3) / 4096)
          :: itu ((b1 * 65536 + b2 * 256 + b3) % 4096) :: rest) 0 0 res
        = decodeCore fuel rest 0 0 (res ++ [b1, b2, b3])) := by
  refine ⟨?_, ?_, ?_, ?_, ?_⟩
  · intro b1 b2 b3 rest h1 h2 h3
    simp only [packStep]
    rw [pack_val1 b1 b2 h1 h2, pack_val2 b2 b3 h3]
    rw [show b1 * 16 + b2 / 16 = (b1 * 65536 + b2 * 256 + b3) / 4096 from by omega]
    rw [show b2 % 16 * 256 + b3 = (b1 * 65536 + b2 * 256 + b3) % 4096 from by omega]
  · intro b1 b2 h1 h2
    simp only [packStep]
    rw [pack_val1 b1 b2 h1 h2]
    rw [mask_0xF, shiftL_mul, show (2:Nat)^8 = 256 from rfl]
  · intro b1 h1
    simp only [packStep]
    rw [shiftL_mul, show (2:Nat)^4 = 16 from rfl]
  · intro fuel b1 b2 b3 b4 rest4 hz ho hp
    simp only [encodeLoop, if_neg hz, if_neg ho, if_neg hp]
  · intro b1 b2 b3 h1 h2 h3 fuel rest res
    exact decode_group b1 b2 b3 h1 h2 h3 fuel rest res

/-- Witness for C4 at the bytes 0xAB 0xCD 0xEF (and a concrete
uncompressed branch instance at bytes 1 2 3 4). -/
theorem claim_C4_witness :
    packStep 0xAB [0xCD, 0xEF, 6] = ([itu 0xABC, itu 0xDEF], [6]) ∧
    packStep 0xAB [0xCD] = ([itu 0xABC, itu 0xD00], []) ∧
    packStep 0xAB [] = ([itu 0xAB0], []) ∧
    encodeLoop 1 [1, 2, 3, 4] =
      (packStep 1 [2, 3, 4]).1 ++ encodeLoop 0 (packStep 1 [2, 3, 4]).2 ∧
    decodeCore 3 [itu 0xABC, itu 0xDEF] 0 0 [] = decodeCore 1 [] 0 0 ([] ++ [0xAB, 0xCD, 0xEF]) :=
  ⟨claim_C4_bytepacker_scheme.1 0xAB 0xCD 0xEF [6] (by decide) (by decide) (by decide),
   claim_C4_bytepacker_scheme.2.1 0xAB 0xCD (by decide) (by decide),
   claim_C4_bytepacker_scheme.2.2.1 0xAB (by decide),
   claim_C4_bytepacker_scheme.2.2.2.1 0 1 2 3 4 [] (by decide) (by decide) (by decide),
   claim_C4_bytepacker_scheme.2.2.2.2 0xAB 0xCD 0xEF (by decide) (by decide) (by decide) 1 [] []⟩

/-- C5 counterexample: for the 2-byte motif 0x00 0x00 the claim fails —
the 8-byte buffer is caught by the higher-priority zero-run branch and no
`PatternRepeat` token is produced. -/
theorem claim_C5_counterexample :
    _encode_bytes (List.replicate 8 0x00) = [zero_run, itu 8] ∧
    repeat_2 ∉ _encode_bytes (List.replicate 8 0x00) :=
  ⟨by rfl, by decide⟩

/-- C5 amended: for every 2-byte motif other than 0x00 0x00 and 0xFF 0xFF
(which are captured by the higher-priority run branches), encoding the
4-fold repetition yields exactly one pattern token — sentinel, the motif's
16-bit value split as 12-bit quotient and remainder, and the count 4 — and
the full artifact decodes back to the identical 8 bytes. -/
theorem claim_C5_pattern_roundtrip_amended (m0 m1 : Nat)
    (hm0 : m0 < 256) (hm1 : m1 < 256)
    (hz : ¬ (m0 = 0x00 ∧ m1 = 0x00)) (ho : ¬ (m0 = 0xFF ∧ m1 = 0xFF)) :
    _encode_bytes [m0, m1, m0, m1, m0, m1, m0, m1] =
      [repeat_2, itu ((m0 * 256 + m1) / 4096), itu ((m0 * 256 + m1) % 4096), itu 4] ∧
    decode_string (encode_file [m0, m1, m0, m1, m0, m1, m0, m1] ".bin") =
      .ok ([m0, m1, m0, m1, m0, m1, m0, m1], ".bin") := by
  have hcz : ¬ (m0 = 0x00 ∧ 4 ≤ runCount 0x00 [m1, m0, m1, m0, m1, m0, m1] 1) := by
    rintro ⟨hm0z, h4⟩
    have hm1z : ¬ (m1 = 0x00) := fun hx => hz ⟨hm0z, hx⟩
    rw [runCount, if_neg (fun hx => hm1z hx.1)] at h4
    omega
  have hco : ¬ (m0 = 0xFF ∧ 4 ≤ runCount 0xFF [m1, m0, m1, m0, m1, m0, m1] 1) := by
    rintro ⟨hm0o, h4⟩
    have hm1o : ¬ (m1 = 0xFF) := fun hx => ho ⟨hm0o, hx⟩
    rw [runCount, if_neg (fun hx => hm1o hx.1)] at h4
    omega
  have hpc : patCount m0 m1 [m0, m1, m0, m1] 2 = 4 := by
    rw [patCount, if_pos ⟨rfl, rfl, by omega⟩]
    rw [patCount, if_pos ⟨rfl, rfl, by omega⟩]
    rfl
  have hrecon : (((m0 * 256 + m1) / 4096) <<< bits_per_char) ||| ((m0 * 256 + m1) % 4096)
      = m0 * 256 + m1 := by
    have h := or_disjoint ((m0 * 256 + m1) / 4096) ((m0 * 256 + m1) % 4096) 12
      (by rw [show (2:Nat)^12 = 4096 from rfl]; omega)
    rw [show bits_per_char = 12 from rfl, h, show (2:Nat)^12 = 4096 from rfl]
    omega
  have henc : _encode_bytes [m0, m1, m0, m1, m0, m1, m0, m1] =
      [repeat_2, itu ((m0 * 256 + m1) / 4096), itu ((m0 * 256 + m1) % 4096), itu 4] := by
    rw [_encode_bytes,
      show ([m0, m1, m0, m1, m0, m1, m0, m1] : List Nat).length = 7 + 1 from rfl]
    simp only [encodeLoop, if_neg hcz, if_neg hco]
    rw [hpc]
    rw [if_pos ⟨trivial, trivial, by omega⟩]
    rw [show (4 * 2 : Nat) = 8 from rfl]
    rw [show List.drop 8 [m0, m1, m0, m1, m0, m1, m0, m1] = ([] : List Nat) from rfl]
    rw [encodeLoop_nil]
    rw [pack_val3 m0 m1 hm1]
    rw [show bits_per_char = 12 from rfl]
    rw [shiftR_div (m0 * 256 + m1) 12]
    rw [mask_general (m0 * 256 + m1) 12]
    rw [show (2:Nat)^12 = 4096 from rfl]
  refine ⟨henc, ?_⟩
  have hart : encode_file [m0, m1, m0, m1, m0, m1, m0, m1] ".bin" =
      0x1F522 :: 0xE000 :: 0xE000 :: 0xE000 :: 0xE008 ::
        [repeat_2, itu ((m0 * 256 + m1) / 4096), itu ((m0 * 256 + m1) % 4096), itu 4, end_marker] := by
    rw [encode_file, henc]
    rw [show ([m0, m1, m0, m1, m0, m1, m0, m1] : List Nat).length = 8 from rfl]
    rw [show formatCharOf ".bin" = [0x1F522] from rfl]
    rw [show sizeHeader 8 = [0xE000, 0xE000, 0xE000, 0xE008] from rfl]
    rfl
  rw [hart]
  have hdb : _decode_to_bytes
      (if ([repeat_2, itu ((m0 * 256 + m1) / 4096), itu ((m0 * 256 + m1) % 4096), itu 4,
            end_marker] : List Nat).getLast? = some end_marker
       then ([repeat_2, itu ((m0 * 256 + m1) / 4096), itu ((m0 * 256 + m1) % 4096), itu 4,
            end_marker] : List Nat).dropLast
       else [repeat_2, itu ((m0 * 256 + m1) / 4096), itu ((m0 * 256 + m1) % 4096), itu 4,
            end_marker])
      = .ok [m0, m1, m0, m1, m0, m1, m0, m1] := by
    rw [if_pos (by rfl)]
    rw [show ([repeat_2, itu ((m0 * 256 + m1) / 4096), itu ((m0 * 256 + m1) % 4096), itu 4,
      end_marker] : List Nat).dropLast
      = [repeat_2, itu ((m0 * 256 + m1) / 4096), itu ((m0 * 256 + m1) % 4096), itu 4] from rfl]
    rw [_decode_to_bytes,
      show ([repeat_2, itu ((m0 * 256 + m1) / 4096), itu ((m0 * 256 + m1) % 4096), itu 4] :
        List Nat).length = 3 + 1 from rfl]
    rw [decodeCore_repeat 3 ((m0 * 256 + m1) / 4096) ((m0 * 256 + m1) % 4096) 4
      (by rw [show CHARSET_SIZE = 6400 from rfl]; omega)
      (by rw [show CHARSET_SIZE = 6400 from rfl]; omega)
      (by rw [show CHARSET_SIZE = 6400 from rfl]; omega) [] 0 0 []]
    rw [decodeCore_nil, List.nil_append]
    rw [hrecon]
    rw [shiftR_div (m0 * 256 + m1) 8, show (2:Nat)^8 = 256 from rfl]
    rw [mask_0xFF ((m0 * 256 + m1) / 256), mask_0xFF (m0 * 256 + m1)]
    rw [show (m0 * 256 + m1) / 256 % 256 = m0 from by omega]
    rw [show (m0 * 256 + m1) % 256 = m1 from by omega]
    rfl
  rw [decode_string_ok 0x1F522 0xE000 0xE000 0xE000 0xE008
    [repeat_2, itu ((m0 * 256 + m1) / 4096), itu ((m0 * 256 + m1) % 4096), itu 4, end_marker]
    (by simp) 8 (by rfl) [m0, m1, m0, m1, m0, m1, m0, m1] hdb ".bin" (by rfl)]
  rw [show ([m0, m1, m0, m1, m0, m1, m0, m1] : List Nat).length = 8 from rfl]
  rw [if_neg (by omega)]

/-- Witness for C5's amended theorem at the motif 0x01 0x02. -/
theorem claim_C5_witness :
    _encode_bytes [1, 2, 1, 2, 1, 2, 1, 2] =
      [repeat_2, itu ((1 * 256 + 2) / 4096), itu ((1 * 256 + 2) % 4096), itu 4] ∧
    decode_string (encode_file [1, 2, 1, 2, 1, 2, 1, 2] ".bin") =
      .ok ([1, 2, 1, 2, 1, 2, 1, 2], ".bin") :=
  claim_C5_pattern_roundtrip_amended 1 2 (by decide) (by decide) (by decide) (by decide)

/-- C6 counterexample: for `.avi` the emoji tag is two code points
(U+1F39E U+FE0F), so the artifact for an empty buffer has 7 symbols, not
the claimed tag + 4 zero header symbols + terminator, and decoding it
fails: the U+FE0F tail is read as the first size-header character. -/
theorem claim_C6_counterexample :
    decode_string (encode_file [] ".avi") = .error .invalidSizeHeader ∧
    (encode_file [] ".avi").length = 7 :=
  ⟨by rfl, by rfl⟩

/-- C6 amended: for every extension whose resolved format char is a single
code point (all sentinels and the generic tag included, but not the emoji
carrying a U+FE0F variation selector), encoding the empty buffer yields
exactly tag + four zero-valued header symbols + terminator, and decoding
that artifact returns the empty buffer. -/
theorem claim_C6_empty_roundtrip_amended (ext : String) (fc : Nat)
    (hfc : formatCharOf ext = [fc]) :
    encode_file [] ext = [fc, itu 0, itu 0, itu 0, itu 0, end_marker] ∧
    ∃ fmt : String, decode_string (encode_file [] ext) = .ok ([], fmt) := by
  have henc : encode_file [] ext = [fc, itu 0, itu 0, itu 0, itu 0, end_marker] := by
    rw [encode_file, hfc]
    rw [show ([] : List Nat).length = 0 from rfl]
    rw [show sizeHeader 0 = [itu 0, itu 0, itu 0, itu 0] from rfl]
    rw [show _encode_bytes [] = ([] : List Nat) from rfl]
    rfl
  refine ⟨henc, ?_⟩
  rw [henc]
  refine ⟨(match REVERSE_FORMAT_MAP_lookup [fc] with | some f => f | none => ".bin"), ?_⟩
  have hdb : _decode_to_bytes
      (if ([end_marker] : List Nat).getLast? = some end_marker
       then ([end_marker] : List Nat).dropLast else [end_marker]) = .ok ([] : List Nat) := by
    rw [if_pos (by rfl)]
    rfl
  rw [decode_string_ok fc (itu 0) (itu 0) (itu 0) (itu 0) [end_marker] (by simp) 0 (by rfl)
    [] hdb _ rfl]
  rw [show ([] : List Nat).length = 0 from rfl]
  rw [if_neg (by omega)]

/-- Witness for C6's amended theorem at `.mp3` (tag U+1F3B5). -/
theorem claim_C6_witness :
    encode_file [] ".mp3" = [0x1F3B5, itu 0, itu 0, itu 0, itu 0, end_marker] ∧
    ∃ fmt : String, decode_string (encode_file [] ".mp3") = .ok ([], fmt) :=
  claim_C6_empty_roundtrip_amended ".mp3" 0x1F3B5 (by rfl)

/-- The payload scanner can only fail with the outside-private-use-area
error (propagated from an unguarded `_unicode_to_int` on a token operand);
it never raises the container errors. -/
theorem decodeCore_error (fuel : Nat) :
    ∀ (enc : List Nat) (bb bc : Nat) (res : List Nat) (e : Err),
      decodeCore fuel enc bb bc res = .error e → e = .outsidePUA := by
  induction fuel with
  | zero =>
    intro enc bb bc res e h
    rw [decodeCore_fuel_zero] at h
    cases h
  | succ f ih =>
    intro enc bb bc res e h
    match enc with
    | [] => rw [decodeCore_nil] at h; cases h
    | ch :: tail =>
      simp only [decodeCore] at h
      repeat' split at h
      all_goals first
        | exact ih _ _ _ _ _ h
        | (cases h <;> exact _unicode_to_int_error _ _ (by assumption))

/-- C7: decoding fails, returning no partial result, on any input of fewer
than 6 symbols — the empty-string error for the empty input and the
too-short error otherwise — and an input of at least 6 symbols is never
rejected for being too short (its only possible failures are the
size-header error and the stray-operand error from the payload scanner). -/
theorem claim_C7_min_container_length :
    decode_string [] = .error .emptyEncoded ∧
    (∀ enc : List Nat, enc ≠ [] → enc.length < 6 → decode_string enc = .error .tooShort) ∧
    (∀ enc : List Nat, 6 ≤ enc.length →
      decode_string enc ≠ .error .emptyEncoded ∧ decode_string enc ≠ .error .tooShort) := by
  refine ⟨rfl, ?_, ?_⟩
  · intro enc hne hlen
    match enc with
    | [] => exact absurd rfl hne
    | c :: rest =>
      simp only [decode_string]
      rw [if_pos hlen]
  · intro enc hlen
    match enc with
    | [] => simp at hlen
    | c :: rest =>
      have hnlt : ¬ (c :: rest).length < 6 := by omega
      cases hr : readSizeHeader (((c :: rest).drop 1).take 4) 0 with
      | error e =>
        have he := readSizeHeader_error (((c :: rest).drop 1).take 4) 0 e hr
        subst he
        have hd : decode_string (c :: rest) = .error .invalidSizeHeader := by
          simp only [decode_string, if_neg hnlt, hr]
        rw [hd]
        constructor <;> intro hcon <;> simp at hcon
      | ok sz =>
        cases hdp : _decode_to_bytes (if (List.drop 5 (c :: rest)).getLast? = some end_marker
            then (List.drop 5 (c :: rest)).dropLast else List.drop 5 (c :: rest)) with
        | error e2 =>
          have he2 : e2 = .outsidePUA := by
            rw [_decode_to_bytes] at hdp
            exact decodeCore_error _ _ _ _ _ _ hdp
          subst he2
          have hd : decode_string (c :: rest) = .error .outsidePUA := by
            simp only [decode_string, if_neg hnlt, hr, hdp]
          rw [hd]
          constructor <;> intro hcon <;> simp at hcon
        | ok db =>
          have hd : decode_string (c :: rest) = .ok
              (if sz < db.length then db.take sz else db,
               match REVERSE_FORMAT_MAP_lookup [c] with | some f => f | none => ".bin") := by
            simp only [decode_string, if_neg hnlt, hr, hdp]
          rw [hd]
          constructor <;> intro hcon <;> simp at hcon

/-- Witness for C7 at a 1-symbol input (too short) and a 6-symbol artifact
(not rejected for length). -/
theorem claim_C7_witness :
    decode_string [0x1F4E6] = .error .tooShort ∧
    (decode_string [0x1F4E6, 0xE000, 0xE000, 0xE000, 0xE000, 0x1F3C1] ≠ .error .emptyEncoded ∧
     decode_string [0x1F4E6, 0xE000, 0xE000, 0xE000, 0xE000, 0x1F3C1] ≠ .error .tooShort) :=
  ⟨claim_C7_min_container_length.2.1 [0x1F4E6] (by simp) (by simp),
   claim_C7_min_container_length.2.2 [0x1F4E6, 0xE000, 0xE000, 0xE000, 0xE000, 0x1F3C1] (by simp)⟩

/-- C8 counterexample: a stray code point in the length header is not
silently skipped — `decode_string` aborts with the size-header error,
contradicting the claim that no stray-symbol error escapes regardless of
position. -/
theorem claim_C8_counterexample :
    decode_string [0x1F4E6, 65, 0xE000, 0xE000, 0xE000, 0x1F3C1]
      = .error .invalidSizeHeader := by rfl

/-- C8 amended: the lenient skip applies exactly to a stray symbol read in
standard (packed) position by the payload scanner — it is dropped with the
scanner state unchanged; but a stray in the size header aborts decode
(counterexample above), and a stray in a token-operand position, e.g.
right after a zero-run sentinel, propagates the outside-private-use-area
error. -/
theorem claim_C8_lenient_skip_amended :
    (∀ (c : Nat) (rest : List Nat) (fuel bb bc : Nat) (res : List Nat),
      (c < PRIVATE_USE_START ∨ PRIVATE_USE_END < c) →
      c ≠ zero_run → c ≠ one_run → c ≠ repeat_2 →
      decodeCore (fuel + 1) (c :: rest) bb bc res = decodeCore fuel rest bb bc res) ∧
    (∀ (c : Nat) (rest : List Nat) (fuel bb bc : Nat) (res : List Nat),
      (c < PRIVATE_USE_START ∨ PRIVATE_USE_END < c) →
      decodeCore (fuel + 1) (zero_run :: c :: rest) bb bc res = .error .outsidePUA) := by
  constructor
  · intro c rest fuel bb bc res hout h1 h2 h3
    have huti : _unicode_to_int c = .error .outsidePUA := by
      rw [_unicode_to_int, if_pos hout]
    simp only [decodeCore, if_neg h1, if_neg h2, if_neg h3, huti]
  · intro c rest fuel bb bc res hout
    have huti : _unicode_to_int c = .error .outsidePUA := by
      rw [_unicode_to_int, if_pos hout]
    simp only [decodeCore, huti]
    rw [if_pos trivial]

/-- Witness for C8's amended theorem at the stray code point 65 ('A'). -/
theorem claim_C8_witness :
    decodeCore 1 [65] 0 0 [] = decodeCore 0 [] 0 0 [] ∧
    decodeCore 1 [zero_run, 65] 0 0 [] = .error .outsidePUA :=
  ⟨claim_C8_lenient_skip_amended.1 65 [] 0 0 0 [] (by decide) (by decide) (by decide) (by decide),
   claim_C8_lenient_skip_amended.2 65 [] 0 0 0 [] (by decide)⟩

/-- C9: encoding with an extension that is not in `FORMAT_MAP` resolves to
the generic tag U+1F4E6 (`FORMAT_MAP['']`), and decoding any artifact whose
tag symbol is that generic tag yields the generic extension `''` (the
reverse map's last-inserted entry for U+1F4E6 is the `''` key). -/
theorem claim_C9_generic_fallback :
    (∀ ext : String, lookupFormat ext = none → formatCharOf ext = [0x1F4E6]) ∧
    (∀ (data : List Nat) (ext : String), lookupFormat ext = none →
      ∃ tail : List Nat, encode_file data ext = 0x1F4E6 :: tail) ∧
    REVERSE_FORMAT_MAP_lookup [0x1F4E6] = some "" ∧
    (∀ (rest r : List Nat) (fmt : String),
      decode_string (0x1F4E6 :: rest) = .ok (r, fmt) → fmt = "") := by
  refine ⟨?_, ?_, by rfl, ?_⟩
  · intro ext hl
    simp only [formatCharOf, hl]
    rfl
  · intro data ext hl
    have hfc : formatCharOf ext = [0x1F4E6] := by simp only [formatCharOf, hl]; rfl
    refine ⟨sizeHeader data.length ++ _encode_bytes data ++ [end_marker], ?_⟩
    rw [encode_file, hfc]
    rfl
  · intro rest r fmt h
    by_cases hlen : (0x1F4E6 :: rest).length < 6
    · simp only [decode_string, if_pos hlen] at h
      cases h
    · cases hr : readSizeHeader (((0x1F4E6 :: rest).drop 1).take 4) 0 with
      | error e =>
        simp only [decode_string, if_neg hlen, hr] at h
        cases h
      | ok sz =>
        cases hdp : _decode_to_bytes
            (if (List.drop 5 (0x1F4E6 :: rest)).getLast? = some end_marker
             then (List.drop 5 (0x1F4E6 :: rest)).dropLast
             else List.drop 5 (0x1F4E6 :: rest)) with
        | error e2 =>
          simp only [decode_string, if_neg hlen, hr, hdp] at h
          cases h
        | ok db =>
          simp only [decode_string, if_neg hlen, hr, hdp, Except.ok.injEq,
            Prod.mk.injEq] at h
          rw [← h.2]
          rfl

/-- Witness for C9 at the unregistered extension `.xyz` and a concrete
generic-tagged artifact. -/
theorem claim_C9_witness :
    (∃ tail : List Nat, encode_file [] ".xyz" = 0x1F4E6 :: tail) ∧
    ("" : String) = "" :=
  ⟨claim_C9_generic_fallback.2.1 [] ".xyz" (by rfl),
   claim_C9_generic_fallback.2.2.2 [0xE000, 0xE000, 0xE000, 0xE000, 0x1F3C1] [] ""
     (by rfl)⟩

/-- C10: the extension-to-tag map is not injective — `.png` and `.css`
share U+1F3A8, and `.ppt`, `.xls`, `.json` share U+1F4CA — and the reverse
map keeps the last-inserted extension per symbol, so decoding an artifact
encoded with `.png` reports `.css`. -/
theorem claim_C10_tag_collision :
    lookupFormat ".png" = some [0x1F3A8] ∧
    lookupFormat ".css" = some [0x1F3A8] ∧
    lookupFormat ".ppt" = some [0x1F4CA] ∧
    lookupFormat ".xls" = some [0x1F4CA] ∧
    lookupFormat ".json" = some [0x1F4CA] ∧
    REVERSE_FORMAT_MAP_lookup [0x1F3A8] = some ".css" ∧
    REVERSE_FORMAT_MAP_lookup [0x1F4CA] = some ".json" ∧
    decode_string (encode_file [] ".png") = .ok ([], ".css") ∧
    (".css" : String) ≠ ".png" :=
  ⟨rfl, rfl, rfl, rfl, rfl, rfl, rfl, by rfl, by decide⟩
